import Mathlib

/-!
Verification of the Process Monitor subsystem
(`src/extensions/gamemode_management/util/ProcessMonitor.ts`).

The development shallowly embeds the monitor's logic as executable Lean
definitions: machine numbers are `Int` (JS numbers; the only non-integral
JS value reachable here, `NaN` from a failed `parseInt`, is represented by
a distinguished integer, see `intNaN`), JS `null`/`undefined` is `Option`,
thrown exceptions are `Except`, and the Redux dispatches performed by a
check are collected as an explicit list of `Transition` values in dispatch
order.  External state reads (store selectors, window focus) are passed as
explicit parameters, matching the spec's note that a reimplementation may
pass them as parameters to make the logic pure.
-/

/-- `IProcessInfo` from ProcessMonitor.ts: one row of the process table. -/
structure IProcessInfo where
  processID : Int
  parentProcessID : Int
  exeFile : String
deriving DecidableEq, Repr

/-- A loaded-module record as returned by `winapi.GetModuleList`; only the
`exePath` field is consumed by the monitor. -/
structure ModuleInfo where
  exePath : String
deriving DecidableEq, Repr

/-- The per-tool entry of `state.session.base.toolsRunning`; the monitor
only reads its `pid` field. -/
structure RunningTool where
  pid : Int
deriving DecidableEq, Repr

/-- One Redux dispatch performed by the monitor: `setToolPid` becomes
`started`, `setToolStopped` becomes `stopped`. -/
inductive Transition where
  | started (path : String) (pid : Int) (exclusive : Bool)
  | stopped (path : String)
deriving DecidableEq, Repr

/-- True exactly for the `started` constructor. -/
def isStartedT : Transition → Bool
  | .started _ _ _ => true
  | .stopped _ => false

/- ---- JS string primitives used by the procfs parser ----
These model the exact ECMAScript semantics of the operations the source
uses: `String.prototype.indexOf`, `lastIndexOf`, `slice` and
`Number.parseInt`. -/

/-- Stand-in for the JS `NaN` produced by `parseInt` on a digit-free
string.  Within this file `NaN` only flows into pid comparisons and
`byPid` lookups; `-1` is observationally equivalent there because every
genuine pid is non-negative (pids come from `parseInt` of digit-only
strings or from the OS), so `-1` equals no real pid, is not the `0`
root sentinel, and indexes no `byPid` entry — exactly like `NaN`. -/
def intNaN : Int := -1

/-- Numeric value of a list of decimal digit characters. -/
def digitsVal (ds : List Char) : Nat :=
  ds.foldl (fun a c => a * 10 + (c.toNat - '0'.toNat)) 0

/-- JS `Number.parseInt(s)` (radix 10 inputs): skip leading whitespace, an
optional sign, then the longest digit prefix; `NaN` (here `intNaN`) if no
digit follows.  The hexadecimal `0x` form cannot arise from the inputs in
scope (digit-only directory entries and `/proc` stat fields) and is not
modelled. -/
def jsParseInt (s : String) : Int :=
  let cs := s.toList.dropWhile (fun c => c = ' ' ∨ c = '\t' ∨ c = '\n' ∨ c = '\r')
  match cs with
  | '-' :: rest =>
    let ds := rest.takeWhile Char.isDigit
    if ds.isEmpty then intNaN else - Int.ofNat (digitsVal ds)
  | '+' :: rest =>
    let ds := rest.takeWhile Char.isDigit
    if ds.isEmpty then intNaN else Int.ofNat (digitsVal ds)
  | _ =>
    let ds := cs.takeWhile Char.isDigit
    if ds.isEmpty then intNaN else Int.ofNat (digitsVal ds)

/-- Index of the first occurrence of `c` at position `≥ i` in `cs`,
`-1` when absent (helper for the JS `indexOf` family). -/
def jsIndexOfAux (c : Char) : List Char → Nat → Int
  | [], _ => -1
  | a :: as, i => if a = c then Int.ofNat i else jsIndexOfAux c as (i + 1)

/-- JS `s.indexOf(c)`. -/
def jsIndexOf (s : String) (c : Char) : Int :=
  jsIndexOfAux c s.toList 0

/-- JS `s.indexOf(c, start)`: the search position is clamped to
`[0, length]`, the returned index is absolute. -/
def jsIndexOfFrom (s : String) (c : Char) (start : Int) : Int :=
  let cs := s.toList
  let st := if start < 0 then 0 else min start.toNat cs.length
  let r := jsIndexOfAux c (cs.drop st) 0
  if r < 0 then -1 else r + Int.ofNat st

/-- Scan keeping the last index where `c` occurred (helper). -/
def jsLastIndexOfAux (c : Char) : List Char → Nat → Int → Int
  | [], _, best => best
  | a :: as, i, best => jsLastIndexOfAux c as (i + 1) (if a = c then Int.ofNat i else best)

/-- JS `s.lastIndexOf(c)`. -/
def jsLastIndexOf (s : String) (c : Char) : Int :=
  jsLastIndexOfAux c s.toList 0 (-1)

/-- Clamp a JS slice index: negative indices count from the end,
the result lies in `[0, len]`. -/
def jsClampIndex (len : Nat) (i : Int) : Nat :=
  if i < 0 then (i + Int.ofNat len).toNat else min i.toNat len

/-- JS `s.slice(a, b)`: characters from clamped `a` up to (excluding)
clamped `b`; empty when `a ≥ b` after clamping. -/
def jsSlice (s : String) (a b : Int) : String :=
  let cs := s.toList
  let len := cs.length
  String.mk ((cs.take (jsClampIndex len b)).drop (jsClampIndex len a))

/-- JS `String.prototype.toLowerCase()` on the ASCII inputs in scope,
as a structural map over the characters (core's `String.toLower` is the
same character map, but via a non-reducing well-founded helper). -/
def jsToLower (s : String) : String :=
  String.mk (s.toList.map Char.toLower)

/- ---- ProcessMonitorImplProcfs ---- -/

/-- Result of a `fs.readFileSync` call: the file's content, or the thrown
error's `code` (e.g. `"ENOENT"`). -/
inductive ReadResult where
  | ok (content : String)
  | err (code : String)

/-- `ProcessMonitorImplProcfs.isOnlyDigits`: every code point is between
`'0'` and `'9'` (true for the empty string, as in the source's loop). -/
def isOnlyDigits (s : String) : Bool :=
  s.toList.all (fun c => '0'.toNat ≤ c.toNat && c.toNat ≤ '9'.toNat)

/-- `path.join(this.proc_path, pidStr, "stat")` with `proc_path = "/proc"`. -/
def statPath (pidStr : String) : String :=
  "/proc/" ++ pidStr ++ "/stat"

/-- The stat-line parsing portion of
`ProcessMonitorImplProcfs.getProcessInfo`: locate the exe name inside the
outermost parentheses, then the parent pid at the fixed offset after the
closing parenthesis.  `pid` always arrives as a directory-entry string
here, so the source's `typeof pid === 'number'` test takes its string
branch (`Number.parseInt(pidStr)`). -/
def getStatProcessInfo (pidStr : String) (stat : String) : IProcessInfo :=
  let exeFileStart := jsIndexOf stat '(' + 1
  let exeFileEnd := jsLastIndexOf stat ')'
  let ppidStart := exeFileEnd + 4
  { processID := jsParseInt pidStr
    parentProcessID := jsParseInt (jsSlice stat ppidStart (jsIndexOfFrom stat ' ' ppidStart))
    exeFile := jsSlice stat exeFileStart exeFileEnd }

/-- `ProcessMonitorImplProcfs.getProcessInfo`: read `/proc/<pid>/stat`;
an `ENOENT` failure yields `null` (the process no longer exists), any
other failure is re-thrown, success yields the parsed record. -/
def getProcessInfo (fsRead : String → ReadResult) (pidStr : String) :
    Except String (Option IProcessInfo) :=
  match fsRead (statPath pidStr) with
  | .err code => if code = "ENOENT" then .ok none else .error code
  | .ok stat => .ok (some (getStatProcessInfo pidStr stat))

/-- `ProcessMonitorImplProcfs.getProcessList`: list the `/proc` entries
(`readdir`'s failure is re-thrown), keep the digit-only names, and map
`getProcessInfo` over them.  Note the source uses `.map`, not a
flat-map/filter: an entry for which `getProcessInfo` returned `null`
stays in the result as `none`. -/
def getProcessList (readdir : Except String (List String))
    (fsRead : String → ReadResult) :
    Except String (List (Option IProcessInfo)) :=
  match readdir with
  | .error e => .error e
  | .ok entries => (entries.filter isOnlyDigits).mapM (getProcessInfo fsRead)

/- ---- ProcessTree: the per-tick indices and the ancestry walk ---- -/

/-- The `byPid` index of `doCheck`: the JS `reduce` assigns
`prev[proc.processID] = proc` in list order, so a later record with the
same pid overwrites an earlier one — lookup finds the last match. -/
def byPid (ps : List IProcessInfo) (pid : Int) : Option IProcessInfo :=
  ps.reverse.find? (fun p => p.processID == pid)

/-- The `byName` index of `doCheck` looked up at one key: grouping by
`exeFile.toLowerCase()` and reading `byName[exeId]` is the in-order list
of records whose lowercased exe name equals `exeId`, and `undefined`
(`none`) when there are no such records. -/
def byName (ps : List IProcessInfo) (exeId : String) : Option (List IProcessInfo) :=
  match ps.filter (fun p => jsToLower p.exeFile == exeId) with
  | [] => none
  | l => some l

/-- The set of pids that occur in the snapshot (termination measure for
the ancestry walk: only these pids can produce a `byPid` hit). -/
def pidsOf (ps : List IProcessInfo) : Finset Int :=
  (ps.map (fun p => p.processID)).toFinset

theorem byPid_some_mem {ps : List IProcessInfo} {pid : Int} {q : IProcessInfo}
    (h : byPid ps pid = some q) : pid ∈ pidsOf ps := by
  unfold byPid at h
  have hq := List.mem_of_find?_eq_some h
  have hpq := List.find?_some h
  simp only [beq_iff_eq] at hpq
  unfold pidsOf
  rw [List.mem_toFinset, List.mem_map]
  exact ⟨q, List.mem_reverse.mp hq, hpq⟩

/-- `isChildProcess` from `doCheck`: walk the parent-pid chain, guarded
by the visited set.  The source's tail
`(ppid === vortexPid) || isChildProcess(byPid[ppid], visited)` is written
with the `byPid` lookup matched explicitly (a `none` lookup is the
source's `isChildProcess(undefined, …) = false` base case), which lets
the visited-set measure establish termination even on cyclic parent
chains: every recursive step adds a fresh pid of the snapshot to
`visited`. -/
def isChildProcess (ps : List IProcessInfo) (vortexPid : Int) :
    Option IProcessInfo → List Int → Bool
  | none, _ => false
  | some proc, visited =>
    if proc.parentProcessID = 0 then false
    else if hv : proc.parentProcessID ∈ visited then false
    else if proc.parentProcessID = vortexPid then true
    else
      match hq : byPid ps proc.parentProcessID with
      | none => false
      | some q => isChildProcess ps vortexPid (some q) (proc.parentProcessID :: visited)
termination_by proc visited => ((pidsOf ps) \ visited.toFinset).card
decreasing_by
  simp only [List.toFinset_cons]
  apply Finset.card_lt_card
  have hsub : pidsOf ps \ insert proc.parentProcessID visited.toFinset
      ⊆ pidsOf ps \ visited.toFinset :=
    Finset.sdiff_subset_sdiff (le_refl _) (Finset.subset_insert _ _)
  rw [Finset.ssubset_iff_of_subset hsub]
  refine ⟨proc.parentProcessID, ?_, ?_⟩
  · rw [Finset.mem_sdiff]
    exact ⟨byPid_some_mem hq, by simpa using hv⟩
  · simp

/- ---- RunningToolTracker: the per-target decision procedure ---- -/

/-- The characters after the last path separator (either `'/'` or `'\\'`,
since node's `path.basename` recognizes the platform separator). -/
def basenameOf (p : String) : String :=
  String.mk (p.toList.foldl (fun acc c => if c = '/' ∨ c = '\\' then [] else acc ++ [c]) [])

/-- Modelled from the spec: `makeExeId` is imported from
`reducers/session`, which is not among the provided sources.  The spec's
ExeIdentity is "a normalized key derived from a full executable path
(lower-cased file name, used to correlate a configured tool's path with
processes sharing that name)". -/
def makeExeId (exePath : String) : String :=
  jsToLower (basenameOf exePath)

/-- The candidate-confirmation predicate of `update`:
`modules.length > 0 && modules[0].exePath.toLowerCase() === exePath.toLowerCase()`
with `modules = winapi.GetModuleList(exe.processID)` (the module inspector
is passed in as a function, so an empty list models both "no modules" and
the inspector's empty answer for a vanished/inaccessible process). -/
def moduleMatch (modules : Int → List ModuleInfo) (exePath : String)
    (exe : IProcessInfo) : Bool :=
  match modules exe.processID with
  | [] => false
  | m :: _ => jsToLower m.exePath == jsToLower exePath

/-- The `update` closure of `doCheck`, translated line by line.  Inputs
that the source reads from enclosing scope are parameters: the snapshot
`ps` (giving `byPid`/`byName`), the module inspector, the monitor's own
pid, and the store's `toolsRunning` map.  The returned list holds the
dispatches in order (the source dispatches at most one action per call). -/
def update (ps : List IProcessInfo) (modules : Int → List ModuleInfo)
    (vortexPid : Int) (toolsRunning : String → Option RunningTool)
    (exePath : String) (exclusive considerDetached : Bool) : List Transition :=
  let exeId := makeExeId exePath
  let knownRunning := toolsRunning exeId
  match byName ps exeId with
  | none =>
    -- nothing with a matching exe name is running
    match knownRunning with
    | some _ => [Transition.stopped exePath]
    | none => []
  | some exeRunning =>
    if (match knownRunning with
        | some k => (byPid ps k.pid).isSome
        | none => false) then
      -- we already know this tool is running and the process is still active
      []
    else
      let candidates := if considerDetached then exeRunning
        else exeRunning.filter (fun proc => isChildProcess ps vortexPid (some proc) [])
      match candidates.find? (moduleMatch modules exePath) with
      | some m => [Transition.started exePath m.processID exclusive]
      | none =>
        match knownRunning with
        | some _ => [Transition.stopped exePath]
        | none => []

/-- JS `a || b` on two possibly-undefined strings: the empty string is
falsy, so it falls through to `b` exactly as `undefined` does. -/
def jsOrStr : Option String → Option String → Option String
  | some s, b => if s = "" then b else some s
  | none, b => b

/-- node `path.join(a, b)` restricted to the separator-free normalization
cases exercised here (no `..`/`.` segments, no trailing separators). -/
def pathJoin (a b : String) : String :=
  a ++ "/" ++ b

/-- One discovered-tool configuration entry as read by `doCheck`:
`path` and `exclusive` may each be absent. -/
structure IDiscoveredTool where
  path : Option String
  exclusive : Option Bool

/-- `ProcessMonitor.doCheck` after the snapshot has been taken: the store
selector reads (`currentGameDiscovery.executable`, `game.executable`,
`currentGameDiscovery.path`, the discovered-tool map in key order) are
explicit parameters.  When the combined game executable (JS `||`) or the
discovery path is `undefined`, the check returns before calling `update`
at all; otherwise the game target is checked first (exclusive, detached
allowed), then each tool with a defined path (exclusive defaulted with
`|| false`, detached not allowed). -/
def doCheck (ps : List IProcessInfo) (modules : Int → List ModuleInfo)
    (vortexPid : Int) (toolsRunning : String → Option RunningTool)
    (discoveryExe gameExeFallback discoveryPath : Option String)
    (tools : List IDiscoveredTool) : List Transition :=
  match jsOrStr discoveryExe gameExeFallback, discoveryPath with
  | some exe, some gp =>
    update ps modules vortexPid toolsRunning (pathJoin gp exe) true true
      ++ (tools.map (fun t =>
        match t.path with
        | none => []
        | some tp => update ps modules vortexPid toolsRunning tp
            (t.exclusive.getD false) false)).flatten
  | _, _ => []

/- ---- PollScheduler: the ProcessMonitor timer state machine ---- -/

/-- The scheduler-relevant fields of the `ProcessMonitor` class.
`hasImpl` is `mImpl !== undefined` (a platform enumerator exists);
`mTimer` is the single pending `setTimeout`, recorded as its delay in
milliseconds (`none` = no pending tick — a `setTimeout` handle is a
one-shot, so the armed-timer state is exactly one optional delay). -/
structure ProcessMonitor where
  hasImpl : Bool
  mActive : Bool
  mTimer : Option Nat
deriving DecidableEq, Repr

/-- `ProcessMonitor.start`: unsupported platform → no-op; already active
→ no-op; otherwise clear any stray timer, arm a 2000 ms tick and become
active.  (The `mWindow` capture is not scheduler state; window focus is a
parameter of `check`.) -/
def ProcessMonitor.start (m : ProcessMonitor) : ProcessMonitor :=
  if m.hasImpl = false then m
  else if m.mActive then m
  else { m with mTimer := some 2000, mActive := true }

/-- `ProcessMonitor.end`: if no timer was ever armed, return; otherwise
cancel the pending timer and deactivate.  (Named `stop` because `end` is
a Lean keyword.) -/
def ProcessMonitor.stop (m : ProcessMonitor) : ProcessMonitor :=
  match m.mTimer with
  | none => m
  | some _ => { m with mTimer := none, mActive := false }

/-- `ProcessMonitor.check`, as run when a timer tick fires: the fired
timer is spent (`mTimer := none`); if the monitor is no longer active the
tick does nothing; if the window is focused (or there is no window,
`fc = none`) `doCheck` runs and a 2000 ms tick is re-armed afterwards if
still active; otherwise `doCheck` is skipped and a 5000 ms tick is armed.
The returned `Bool` records whether `doCheck` was invoked on this tick. -/
def ProcessMonitor.check (fc : Option Bool) (m : ProcessMonitor) :
    Bool × ProcessMonitor :=
  let m0 := { m with mTimer := none }
  if m0.mActive = false then (false, m0)
  else if fc.getD true then
    (true, if m0.mActive then { m0 with mTimer := some 2000 } else m0)
  else
    (false, { m0 with mTimer := some 5000 })

/- ---- Concrete fixtures used by witnesses and counterexamples ---- -/

/-- A `toolsRunning` store state that believes pid 5 runs `tool.exe`. -/
def trTool : String → Option RunningTool :=
  fun i => if i = "tool.exe" then some ⟨5⟩ else none

/-- A `toolsRunning` store state that believes pid 200 runs `game.exe`. -/
def trGame : String → Option RunningTool :=
  fun i => if i = "game.exe" then some ⟨200⟩ else none

/-- A filesystem where pid 1 has a stat file and every other read fails
with `ENOENT` (so pid 2 vanished between listing and inspection). -/
def fsReadVanished : String → ReadResult := fun p =>
  if p = "/proc/1/stat" then .ok "1 (init) S 0 1 1 0 -1" else .err "ENOENT"

/-- What the procfs enumerator returns on `fsReadVanished`: pid 1 parsed,
pid 2 kept as a `none` (JS `null`) placeholder. -/
def procListVanished : List (Option IProcessInfo) := [some ⟨1, 0, "init"⟩, none]

/-- The spec's module-path disambiguation scenario: two processes named
`tool.exe` (pids 100 and 200). -/
def psDisamb : List IProcessInfo := [⟨100, 1, "tool.exe"⟩, ⟨200, 1, "tool.exe"⟩]

/-- Module lists for `psDisamb`: only pid 200's main module lives at the
configured path. -/
def modsDisamb : Int → List ModuleInfo := fun pid =>
  if pid = 100 then [⟨"/other/tool.exe"⟩]
  else if pid = 200 then [⟨"/configured/path/tool.exe"⟩] else []

/- ---- Step lemmas for the ancestry walk (the well-founded definition
does not reduce definitionally; these recover its one-step behavior) ---- -/

theorem isChildProcess_none (ps : List IProcessInfo) (v : Int) (vis : List Int) :
    isChildProcess ps v none vis = false :=
  isChildProcess.eq_1 ps v vis

theorem isChildProcess_parent_zero (ps : List IProcessInfo) (v : Int)
    (p : IProcessInfo) (vis : List Int) (h0 : p.parentProcessID = 0) :
    isChildProcess ps v (some p) vis = false := by
  rw [isChildProcess.eq_def]
  simp [h0]

theorem isChildProcess_visited (ps : List IProcessInfo) (v : Int)
    (p : IProcessInfo) (vis : List Int) (hv : p.parentProcessID ∈ vis) :
    isChildProcess ps v (some p) vis = false := by
  rw [isChildProcess.eq_def]
  simp [hv]

theorem isChildProcess_vortex (ps : List IProcessInfo) (v : Int)
    (p : IProcessInfo) (vis : List Int) (h0 : p.parentProcessID ≠ 0)
    (hv : p.parentProcessID ∉ vis) (he : p.parentProcessID = v) :
    isChildProcess ps v (some p) vis = true := by
  rw [isChildProcess.eq_def]
  simp only [if_neg h0, dif_neg hv, if_pos he]

theorem isChildProcess_lookup_none (ps : List IProcessInfo) (v : Int)
    (p : IProcessInfo) (vis : List Int) (h0 : p.parentProcessID ≠ 0)
    (hv : p.parentProcessID ∉ vis) (he : p.parentProcessID ≠ v)
    (hq : byPid ps p.parentProcessID = none) :
    isChildProcess ps v (some p) vis = false := by
  rw [isChildProcess.eq_def]
  simp only [if_neg h0, dif_neg hv, if_neg he]
  split <;> simp_all

theorem isChildProcess_lookup_some (ps : List IProcessInfo) (v : Int)
    (p q : IProcessInfo) (vis : List Int) (h0 : p.parentProcessID ≠ 0)
    (hv : p.parentProcessID ∉ vis) (he : p.parentProcessID ≠ v)
    (hq : byPid ps p.parentProcessID = some q) :
    isChildProcess ps v (some p) vis
      = isChildProcess ps v (some q) (p.parentProcessID :: vis) := by
  rw [isChildProcess.eq_def]
  simp only [if_neg h0, dif_neg hv, if_neg he]
  split <;> simp_all

/- ---- Shared helper lemmas ---- -/

theorem byName_eq_filter {ps : List IProcessInfo} {e : String} {l : List IProcessInfo}
    (hb : byName ps e = some l) :
    l = ps.filter (fun p => jsToLower p.exeFile == e) := by
  unfold byName at hb
  split at hb
  · exact absurd hb (by simp)
  · simp_all

theorem find?_prefix_first {α : Type} (p : α → Bool) (pre post : List α) (c : α)
    (hpre : ∀ x ∈ pre, p x = false) (hc : p c = true) :
    (pre ++ c :: post).find? p = some c := by
  induction pre with
  | nil => simp [List.find?_cons_of_pos, hc]
  | cons a as ih =>
    have ha := hpre a (List.mem_cons_self a as)
    rw [List.cons_append, List.find?_cons_of_neg]
    · exact ih (fun x hx => hpre x (List.mem_cons_of_mem a hx))
    · simp [ha]

/- ---- Claim theorems ---- -/

/-- C1: For every snapshot and candidate record the ancestry walk
`isChildProcess` is a total boolean function (defined by well-founded
recursion on the snapshot pids not yet visited, so it terminates even on
cyclic parent chains): an absent record returns `false`, a record whose
parent pid is `0` returns `false`, a parent pid already in the visited
set stops the walk with `false`, and on the cyclic snapshot where pid
10's parent is 20 and pid 20's parent is 10 the walk terminates with
`false`. -/
theorem isChildProcess_total_guards (ps : List IProcessInfo) (v : Int)
    (vis : List Int) (p : IProcessInfo)
    (hp : p.parentProcessID = 0 ∨ p.parentProcessID ∈ vis) :
    isChildProcess ps v none vis = false
    ∧ isChildProcess ps v (some p) vis = false
    ∧ isChildProcess [⟨10, 20, "a"⟩, ⟨20, 10, "a"⟩] 999 (some ⟨10, 20, "a"⟩) [] = false := by
  refine ⟨isChildProcess_none ps v vis, ?_, ?_⟩
  · rcases hp with h | h
    · exact isChildProcess_parent_zero ps v p vis h
    · exact isChildProcess_visited ps v p vis h
  · rw [isChildProcess_lookup_some _ _ _ ⟨20, 10, "a"⟩ _ (by decide) (by decide) (by decide)
      (by rfl)]
    rw [isChildProcess_lookup_some _ _ _ ⟨10, 20, "a"⟩ _ (by decide) (by decide) (by decide)
      (by rfl)]
    exact isChildProcess_visited _ _ _ _ (by decide)

theorem isChildProcess_total_guards_witness :
    isChildProcess [] 1 none [] = false
    ∧ isChildProcess [] 1 (some ⟨5, 0, "x"⟩) [] = false
    ∧ isChildProcess [⟨10, 20, "a"⟩, ⟨20, 10, "a"⟩] 999 (some ⟨10, 20, "a"⟩) [] = false :=
  isChildProcess_total_guards [] 1 [] ⟨5, 0, "x"⟩ (Or.inl rfl)

/-- C2: The procfs enumerator does NOT omit the record of a process that
vanished between listing and inspection: `getProcessList` succeeds but
keeps a `none` (JS `null`) placeholder in the returned list, so not every
element of the result is a well-formed process record — the claim's
omission behavior is the evident intent (the `ENOENT` branch exists
precisely to tolerate vanished processes, and `doCheck` immediately
dereferences every element of this list), but the code maps instead of
filtering.  The claim's second half holds: a non-`ENOENT` failure
(`EACCES`) aborts the whole enumeration. -/
theorem getProcessList_keeps_null_for_vanished :
    getProcessList (.ok ["1", "2", "self"]) fsReadVanished = .ok procListVanished
    ∧ (none ∈ procListVanished)
    ∧ getProcessList (.ok ["1"]) (fun _ => .err "EACCES") = .error "EACCES" :=
  ⟨rfl, by simp [procListVanished], rfl⟩

/-- C3 counterexample: a tick fires while the monitor is active
(`mActive = true`) but the window is unfocused (`some false`); `check`
does not invoke `doCheck` (first component `false`), refuting the claim
that on every active tick "the check is invoked" with the period chosen
afterwards — the source skips the check entirely and merely re-arms a
5000 ms tick. -/
theorem check_skipped_when_unfocused_cex :
    (ProcessMonitor.check (some false) ⟨true, true, some 2000⟩).1 = false
    ∧ (ProcessMonitor.check (some false) ⟨true, true, some 2000⟩).2.mTimer = some 5000 :=
  ⟨rfl, rfl⟩

/-- C3 amended: on a timer tick that fires while the monitor is active,
when the host window is focused or window-focus information is
unavailable the check is invoked and the next tick is armed at the
baseline 2000 ms after the check completes; otherwise the check is
skipped and the next tick is armed at 5000 ms (baseline x 2.5). -/
theorem check_period_selection (m : ProcessMonitor) (fc : Option Bool)
    (hA : m.mActive = true) :
    (fc.getD true = true →
      (ProcessMonitor.check fc m).1 = true
      ∧ (ProcessMonitor.check fc m).2.mTimer = some 2000)
    ∧ (fc.getD true = false →
      (ProcessMonitor.check fc m).1 = false
      ∧ (ProcessMonitor.check fc m).2.mTimer = some 5000) := by
  constructor <;> intro hf <;> simp [ProcessMonitor.check, hA, hf]

theorem check_period_selection_witness :
    ((Option.getD (none : Option Bool) true) = true →
      (ProcessMonitor.check none ⟨true, true, some 2000⟩).1 = true
      ∧ (ProcessMonitor.check none ⟨true, true, some 2000⟩).2.mTimer = some 2000)
    ∧ ((Option.getD (none : Option Bool) true) = false →
      (ProcessMonitor.check none ⟨true, true, some 2000⟩).1 = false
      ∧ (ProcessMonitor.check none ⟨true, true, some 2000⟩).2.mTimer = some 5000) :=
  check_period_selection ⟨true, true, some 2000⟩ none rfl

/-- C4 counterexample: the known-running entry for `tool.exe` stores pid
5, and pid 5 IS present in the snapshot's `byPid` — but under the exe
name `other.exe`, so `byName` has no entry for `tool.exe` and `update`
dispatches `Stopped` anyway: the claim's "no transition whenever the
stored pid is present in byPid" is false on the code (the
no-candidates branch runs before the steady-state pid check). -/
theorem update_steady_state_cex :
    (byPid [⟨5, 1, "other.exe"⟩] 5).isSome = true
    ∧ trTool (makeExeId "tool.exe") = some ⟨5⟩
    ∧ update [⟨5, 1, "other.exe"⟩] (fun _ => []) 99 trTool "tool.exe" false false
      = [Transition.stopped "tool.exe"] :=
  ⟨rfl, rfl, rfl⟩

/-- C4 amended: for every target path P, if the known-running state has
an entry for P whose stored pid is present in the snapshot's `byPid`
index AND at least one process whose lowercased exe name equals P's exe
identity exists in the snapshot (`byName` has an entry), then `check`
emits no transition for P. -/
theorem update_steady_state (ps : List IProcessInfo) (modules : Int → List ModuleInfo)
    (v : Int) (tr : String → Option RunningTool) (P : String) (ex det : Bool)
    (k : RunningTool) (hk : tr (makeExeId P) = some k)
    (hpid : (byPid ps k.pid).isSome = true)
    (l : List IProcessInfo) (hb : byName ps (makeExeId P) = some l) :
    update ps modules v tr P ex det = [] := by
  simp only [update, hb, hk, hpid, if_true]

theorem update_steady_state_witness :
    (byPid [⟨5, 1, "tool.exe"⟩] 5).isSome = true
    ∧ update [⟨5, 1, "tool.exe"⟩] (fun _ => []) 99 trTool "tool.exe" false true = [] :=
  ⟨rfl, update_steady_state [⟨5, 1, "tool.exe"⟩] (fun _ => []) 99 trTool "tool.exe"
    false true ⟨5⟩ rfl rfl [⟨5, 1, "tool.exe"⟩] rfl⟩

/-- C5: if the known-running state has an entry for P whose pid is absent
from the snapshot's `byPid`, and no process in the snapshot with P's exe
name is confirmed by the module inspector (no same-named process whose
main module path case-insensitively equals P), then `update` emits
exactly one `Stopped P` and no `Started` — whether or not any same-named
candidates exist, and for either detached setting. -/
theorem update_stopped_when_gone (ps : List IProcessInfo)
    (modules : Int → List ModuleInfo) (v : Int) (tr : String → Option RunningTool)
    (P : String) (ex det : Bool) (k : RunningTool)
    (hk : tr (makeExeId P) = some k)
    (hpid : byPid ps k.pid = none)
    (hnc : ∀ p ∈ ps, jsToLower p.exeFile = makeExeId P → moduleMatch modules P p = false) :
    update ps modules v tr P ex det = [Transition.stopped P] := by
  cases hb : byName ps (makeExeId P) with
  | none => simp only [update, hb, hk]
  | some l =>
    have hl := byName_eq_filter hb
    have hfind : (if det = true then l
        else l.filter (fun proc => isChildProcess ps v (some proc) [])).find?
          (moduleMatch modules P) = none := by
      rw [List.find?_eq_none]
      intro x hx
      have hxl : x ∈ l := by
        split at hx
        · exact hx
        · exact List.mem_of_mem_filter hx
      rw [hl] at hxl
      obtain ⟨hxps, hxe⟩ := List.mem_filter.mp hxl
      simp only [beq_iff_eq] at hxe
      simp [hnc x hxps hxe]
    simp only [update, hb, hk, hpid, Option.isSome_none, Bool.false_eq_true, if_false, hfind]

theorem update_stopped_when_gone_witness :
    byPid [⟨7, 1, "tool.exe"⟩] (5 : Int) = none
    ∧ update [⟨7, 1, "tool.exe"⟩] (fun _ => []) 99 trTool "tool.exe" false true
      = [Transition.stopped "tool.exe"] :=
  ⟨rfl, update_stopped_when_gone [⟨7, 1, "tool.exe"⟩] (fun _ => []) 99 trTool "tool.exe"
    false true ⟨5⟩ rfl rfl (fun p _ _ => rfl)⟩

/-- C6: for a target that does not allow detached matches
(`considerDetached = false`), if every same-named process in the snapshot
fails the ancestry test rooted at the monitor's own pid, then `update`
emits no `Started` transition, even though same-named processes exist
(`byName` has an entry). -/
theorem update_no_started_when_ancestry_fails (ps : List IProcessInfo)
    (modules : Int → List ModuleInfo) (v : Int) (tr : String → Option RunningTool)
    (P : String) (ex : Bool) (l : List IProcessInfo)
    (hb : byName ps (makeExeId P) = some l)
    (hfail : ∀ p ∈ ps, jsToLower p.exeFile = makeExeId P →
      isChildProcess ps v (some p) [] = false) :
    (update ps modules v tr P ex false).all (fun t => !isStartedT t) = true := by
  have hl := byName_eq_filter hb
  have hcand : l.filter (fun proc => isChildProcess ps v (some proc) []) = [] := by
    rw [List.filter_eq_nil_iff]
    intro x hxl
    rw [hl] at hxl
    obtain ⟨hxps, hxe⟩ := List.mem_filter.mp hxl
    simp only [beq_iff_eq] at hxe
    simp [hfail x hxps hxe]
  simp only [update, hb, hcand, List.find?_nil, Bool.false_eq_true, if_false]
  cases htr : tr (makeExeId P) with
  | none => rfl
  | some k => cases hbp : (byPid ps k.pid).isSome <;> simp [isStartedT]

theorem update_no_started_when_ancestry_fails_witness :
    (update [⟨100, 1, "tool.exe"⟩] (fun _ => [⟨"tool.exe"⟩]) 50 (fun _ => none)
      "tool.exe" false false).all (fun t => !isStartedT t) = true :=
  update_no_started_when_ancestry_fails [⟨100, 1, "tool.exe"⟩] (fun _ => [⟨"tool.exe"⟩])
    50 (fun _ => none) "tool.exe" false [⟨100, 1, "tool.exe"⟩] rfl
    (by
      intro p hp h
      rw [List.mem_singleton] at hp
      subst hp
      exact isChildProcess_lookup_none _ _ _ _ (by decide) (by decide) (by decide) rfl)

/-- C7: among the (detached-)filtered candidates, written as
`pre ++ c :: post` where every candidate in `pre` fails the module test,
`update` selects `c` — the first candidate whose main module (head of its
module list) case-insensitively equals the target path — and emits
`Started` with `c`'s pid; such a selected candidate necessarily has a
non-empty module list (an empty module list fails the test and the walk
moves on to later candidates, as `pre` may contain such candidates). -/
theorem update_selects_first_module_match (ps : List IProcessInfo)
    (modules : Int → List ModuleInfo) (v : Int) (tr : String → Option RunningTool)
    (P : String) (ex det : Bool) (l : List IProcessInfo)
    (hb : byName ps (makeExeId P) = some l)
    (hg : ∀ k, tr (makeExeId P) = some k → byPid ps k.pid = none)
    (pre post : List IProcessInfo) (c : IProcessInfo)
    (hc : (if det = true then l
        else l.filter (fun proc => isChildProcess ps v (some proc) [])) = pre ++ c :: post)
    (hpre : ∀ x ∈ pre, moduleMatch modules P x = false)
    (hcm : moduleMatch modules P c = true) :
    update ps modules v tr P ex det = [Transition.started P c.processID ex]
    ∧ modules c.processID ≠ [] := by
  constructor
  · have hfind : (if det = true then l
        else l.filter (fun proc => isChildProcess ps v (some proc) [])).find?
          (moduleMatch modules P) = some c := by
      rw [hc]
      exact find?_prefix_first _ pre post c hpre hcm
    cases htr : tr (makeExeId P) with
    | none => simp only [update, hb, htr, Bool.false_eq_true, if_false, hfind]
    | some k =>
      simp only [update, hb, htr, hg k htr, Option.isSome_none, Bool.false_eq_true,
        if_false, hfind]
  · unfold moduleMatch at hcm
    intro hmod
    rw [hmod] at hcm
    simp at hcm

theorem update_selects_first_module_match_witness :
    update psDisamb modsDisamb 50 (fun _ => none) "/configured/path/tool.exe" true true
      = [Transition.started "/configured/path/tool.exe" 200 true] :=
  (update_selects_first_module_match psDisamb modsDisamb 50 (fun _ => none)
    "/configured/path/tool.exe" true true psDisamb rfl (fun _ hk => Option.noConfusion hk)
    [⟨100, 1, "tool.exe"⟩] [] ⟨200, 1, "tool.exe"⟩ rfl
    (by
      intro x hx
      rw [List.mem_singleton] at hx
      subst hx
      rfl)
    rfl).1

/-- C8: the scheduler keeps at most one pending tick — starting from an
idle monitor on a supported platform, a second `start` is a no-op and the
started monitor holds exactly one pending 2000 ms timer; for any monitor
satisfying the reachable-state invariant (active implies a timer is
armed), `stop` is idempotent, leaves no pending timer, and a tick that
fires after `stop` does nothing: it invokes no check and arms no
timer. -/
theorem scheduler_single_pending (s t : ProcessMonitor) (fc : Option Bool)
    (hImpl : s.hasImpl = true) (hIdle : s.mActive = false)
    (hInv : t.mActive = true → t.mTimer ≠ none) :
    (ProcessMonitor.start (ProcessMonitor.start s) = ProcessMonitor.start s)
    ∧ ((ProcessMonitor.start s).mTimer = some 2000)
    ∧ (ProcessMonitor.stop (ProcessMonitor.stop t) = ProcessMonitor.stop t)
    ∧ ((ProcessMonitor.stop t).mTimer = none)
    ∧ ((ProcessMonitor.check fc (ProcessMonitor.stop t)).1 = false)
    ∧ ((ProcessMonitor.check fc (ProcessMonitor.stop t)).2.mTimer = none) := by
  refine ⟨?_, ?_, ?_, ?_, ?_, ?_⟩
  · simp [ProcessMonitor.start, hImpl, hIdle]
  · simp [ProcessMonitor.start, hImpl, hIdle]
  · unfold ProcessMonitor.stop
    cases ht : t.mTimer <;> simp [ht]
  · unfold ProcessMonitor.stop
    cases ht : t.mTimer <;> simp [ht]
  · unfold ProcessMonitor.stop
    cases ht : t.mTimer with
    | none =>
      cases ha : t.mActive with
      | true => exact (hInv ha ht).elim
      | false => simp [ProcessMonitor.check, ha]
    | some d => simp [ProcessMonitor.check]
  · unfold ProcessMonitor.stop
    cases ht : t.mTimer with
    | none =>
      cases ha : t.mActive with
      | true => exact (hInv ha ht).elim
      | false => simp [ProcessMonitor.check, ha]
    | some d => simp [ProcessMonitor.check]

theorem scheduler_single_pending_witness :
    (ProcessMonitor.start (ProcessMonitor.start ⟨true, false, none⟩)
        = ProcessMonitor.start ⟨true, false, none⟩)
    ∧ ((ProcessMonitor.start ⟨true, false, none⟩).mTimer = some 2000)
    ∧ (ProcessMonitor.stop (ProcessMonitor.stop ⟨true, true, some 2000⟩)
        = ProcessMonitor.stop ⟨true, true, some 2000⟩)
    ∧ ((ProcessMonitor.stop ⟨true, true, some 2000⟩).mTimer = none)
    ∧ ((ProcessMonitor.check (some true) (ProcessMonitor.stop ⟨true, true, some 2000⟩)).1
        = false)
    ∧ ((ProcessMonitor.check (some true) (ProcessMonitor.stop ⟨true, true, some 2000⟩)).2.mTimer
        = none) :=
  scheduler_single_pending ⟨true, false, none⟩ ⟨true, true, some 2000⟩ (some true) rfl rfl
    (fun _ h => Option.noConfusion h)

/-- C9: if the active game's executable name (after the JS `||` fallback
from the discovery record to the game record, under which an empty string
is falsy) or its discovery path is unavailable at the start of a check,
`doCheck` emits no transitions at all — no `Started` and no `Stopped` for
any target, the game or any tool. -/
theorem doCheck_no_game_info (ps : List IProcessInfo)
    (modules : Int → List ModuleInfo) (v : Int) (tr : String → Option RunningTool)
    (dExe gExe dPath : Option String) (tools : List IDiscoveredTool)
    (h : jsOrStr dExe gExe = none ∨ dPath = none) :
    doCheck ps modules v tr dExe gExe dPath tools = [] := by
  unfold doCheck
  rcases h with h | h
  · rw [h]
  · rw [h]
    cases jsOrStr dExe gExe <;> rfl

theorem doCheck_no_game_info_witness :
    jsOrStr (some "") none = none
    ∧ doCheck [] (fun _ => []) 1 (fun _ => some ⟨9⟩) (some "") none (some "/games/x")
        [⟨some "/games/tool.exe", some true⟩] = [] :=
  ⟨rfl, doCheck_no_game_info [] (fun _ => []) 1 (fun _ => some ⟨9⟩) (some "") none
    (some "/games/x") [⟨some "/games/tool.exe", some true⟩] (Or.inl rfl)⟩

/-- C10: if the known-running state has an entry for P whose pid is
absent from the snapshot's `byPid`, but the candidate search confirms a
same-named process `c` (the first filtered candidate passing the module
test), then `update` emits exactly one `Started P c.pid exclusive` and no
`Stopped` — a restart observed between two ticks collapses into a single
`Started` notification. -/
theorem update_restart_collapses (ps : List IProcessInfo)
    (modules : Int → List ModuleInfo) (v : Int) (tr : String → Option RunningTool)
    (P : String) (ex det : Bool) (k : RunningTool)
    (hk : tr (makeExeId P) = some k) (hpid : byPid ps k.pid = none)
    (l : List IProcessInfo) (hb : byName ps (makeExeId P) = some l) (c : IProcessInfo)
    (hfind : (if det = true then l
        else l.filter (fun proc => isChildProcess ps v (some proc) [])).find?
          (moduleMatch modules P) = some c) :
    update ps modules v tr P ex det = [Transition.started P c.processID ex] := by
  simp only [update, hb, hk, hpid, Option.isSome_none, Bool.false_eq_true, if_false, hfind]

theorem update_restart_collapses_witness :
    byPid [⟨300, 1, "game.exe"⟩] (200 : Int) = none
    ∧ update [⟨300, 1, "game.exe"⟩] (fun _ => [⟨"/g/game.exe"⟩]) 99 trGame
        "/g/game.exe" true true
      = [Transition.started "/g/game.exe" 300 true] :=
  ⟨rfl, update_restart_collapses [⟨300, 1, "game.exe"⟩] (fun _ => [⟨"/g/game.exe"⟩]) 99
    trGame "/g/game.exe" true true ⟨200⟩ rfl rfl [⟨300, 1, "game.exe"⟩] rfl
    ⟨300, 1, "game.exe"⟩ rfl⟩
